import Mathlib

/-!
Verification of the FlatBuffers Swift binding generator (`src/idl_gen_swift.cpp`).

The generator walks the parsed schema (enum and struct/table definitions) and
assembles Swift source text.  The development below is a shallow embedding of
the parts of that file the claims are about:

* the schema data model the generator reads (`SchemaType`, `FieldDef`,
  `StructDef`, `EnumDef`, `ParserModel`) — these entities are produced by the
  parser (`idl.h` / `idl_parser.cpp`, outside `src/`) and are read-only inputs;
* the type mapper `GenType` (lines 189–233);
* the structured content of the code emitted per struct by `GenStruct`
  (lines 235–329) and `generateClassStructStaticMethods` (lines 331–422):
  accessors, the `create` body's `startObject`/add-call sequence, the static
  `start`/`add`/`end` helpers, `required` calls and the root `finish` entry.
  Each `code += ...` block that emits one accessor / builder call is modelled
  as one record carrying exactly the data the source interpolates into the
  text; the pure text around it (braces, keywords) is not re-proved.  The
  camel-casing helper `MakeCamel` (code_generators.cpp, outside `src/`) is not
  modelled: emitted-identifier fields below carry the schema name that the
  source passes to it;
* the keyword escaping table and `EscapeKeyword` (lines 23–106, 150–158);
* the enum generator `GenEnum` (lines 444–463), both as structured data and as
  the literal string it appends (needed to reason about empty output);
* the per-file save path `SaveType` (lines 172–186) and the enum loop of
  `generate` (lines 112–124); the file writer `SaveFile` and the
  namespace-directory computation are external collaborators and appear as
  parameters.
-/

/-- The type-variant tag of a schema type, mirroring `BaseType` from `idl.h`
(outside `src/`) as consumed by the switch in `GenType`.  The C++ `Type`
carries a `base_type` plus an `element` tag for vectors; `type.VectorType()`
rebuilds the element as a `Type`, which the recursive `vector` constructor
mirrors.  `unhandled` stands for any enumerator value of the open C++ enum
that is not named by a case of the switch in `GenType` (the `default` branch
exists in the source precisely to receive those). -/
inductive SchemaType where
  | none_
  | utype
  | bool_
  | char
  | uchar
  | short
  | ushort
  | int_
  | uint
  | long
  | ulong
  | float_
  | double_
  | string_
  | vector (elem : SchemaType)
  | struct_
  | union_
  | unhandled
deriving DecidableEq, Repr

/-- The `Value` part of a parsed field (`field.value` in the source): its
type, its default literal (`constant`, already rendered to text by the
parser) and its parser-assigned vtable offset (`offset`). -/
structure ValueDef where
  type : SchemaType
  constant : String
  offset : Nat
deriving DecidableEq, Repr

/-- A parsed field definition, restricted to the members
`idl_gen_swift.cpp` reads: `name`, `value`, `deprecated`, `required`. -/
structure FieldDef where
  name : String
  value : ValueDef
  deprecated : Bool
  required : Bool
deriving DecidableEq, Repr

/-- A parsed struct/table definition (`StructDef`), restricted to the members
the generator reads: `name`, `fields.vec` (declaration order), `fixed`,
`sortbysize`, `has_key`. -/
structure StructDef where
  name : String
  fields : List FieldDef
  fixed : Bool
  sortbysize : Bool
  has_key : Bool
deriving DecidableEq, Repr

/-- A parsed enum value (`EnumVal`): name and numeric value. -/
structure EnumVal where
  name : String
  value : Int
deriving DecidableEq, Repr

/-- A parsed enum definition (`EnumDef`), restricted to the members the
generator reads: `name`, `vals.vec`, and the `generated` flag that marks
definitions whose code was already produced elsewhere. -/
structure EnumDef where
  name : String
  vals : List EnumVal
  generated : Bool
deriving DecidableEq, Repr

/-- The slice of `Parser` state the generator reads: the definition lists,
the designated root (`root_struct_def_`, a pointer into `structs_.vec`,
modelled as the index it points at), the schema's file identifier and the
`one_file` option. -/
structure ParserModel where
  enums : List EnumDef
  structs : List StructDef
  rootIdx : Option Nat
  file_identifier : String
  one_file : Bool
deriving DecidableEq, Repr

/-- Result of running the type mapper: either a returned type string or an
aborted run.  `fatal` is what a firing assertion would be; no branch of the
source actually produces it (see `GenType`). -/
inductive GenResult where
  | value (s : String)
  | fatal
deriving DecidableEq, Repr

/-- `SwiftGenerator::GenType` (lines 189–233): the switch over
`type.base_type`.  Every returned literal is copied verbatim, including the
leading space in `" UInt16"` (line 204 of the source).  The `default` branch
(lines 229–231) executes `assert("tried to retrieve unknown type, a new case
must be required")`: the assert condition is a non-null string literal, hence
always true, so the branch falls through and returns the empty string — it
never aborts, which is why no case below maps to `GenResult.fatal`. -/
def GenType : SchemaType → GenResult
  | SchemaType.none_ => GenResult.value ("Void")
  | SchemaType.utype => GenResult.value ("Void")
  | SchemaType.bool_ => GenResult.value ("Bool")
  | SchemaType.char => GenResult.value ("Int8")
  | SchemaType.uchar => GenResult.value ("UInt8")
  | SchemaType.short => GenResult.value ("Int16")
  | SchemaType.ushort => GenResult.value (" UInt16")
  | SchemaType.int_ => GenResult.value ("Int32")
  | SchemaType.uint => GenResult.value ("UInt32")
  | SchemaType.long => GenResult.value ("Int64")
  | SchemaType.ulong => GenResult.value ("UInt64")
  | SchemaType.float_ => GenResult.value ("Float")
  | SchemaType.double_ => GenResult.value ("Double")
  | SchemaType.string_ => GenResult.value ("String")
  | SchemaType.vector e =>
      match GenType e with
      | GenResult.value s => GenResult.value ("Array<" ++ s ++ ">")
      | GenResult.fatal => GenResult.fatal
  | SchemaType.struct_ => GenResult.value ("Never")
  | SchemaType.union_ => GenResult.value ("Never")
  | SchemaType.unhandled => GenResult.value ("")

/-- The string `GenType` hands to its callers (every call site concatenates
the switch's returned string into the output). -/
def GenTypeS (t : SchemaType) : String :=
  match GenType t with
  | GenResult.value s => s
  | GenResult.fatal => ""

/-- Modelled from the spec: `IsScalar` from `idl.h` (outside `src/`) — the
scalar kinds (bool, the 8/16/32/64-bit signed and unsigned integers,
float32/float64, plus the union-type tag byte) are scalar; string, vector,
struct and union fields hold offsets instead of inline scalar data. -/
def IsScalar : SchemaType → Bool
  | SchemaType.utype => true
  | SchemaType.bool_ => true
  | SchemaType.char => true
  | SchemaType.uchar => true
  | SchemaType.short => true
  | SchemaType.ushort => true
  | SchemaType.int_ => true
  | SchemaType.uint => true
  | SchemaType.long => true
  | SchemaType.ulong => true
  | SchemaType.float_ => true
  | SchemaType.double_ => true
  | _ => false

/-- Modelled from the spec: `SizeOf` from `idl.h` (outside `src/`) — the
inline byte size of a field of each type variant: scalar kinds have their
natural 1/2/4/8-byte sizes, and string, vector, struct and union fields
occupy a 4-byte offset slot.  `unhandled` has no entry in the source's size
table; it is given 1 here and is used by no claim. -/
def sizeOfType : SchemaType → Nat
  | SchemaType.none_ => 1
  | SchemaType.utype => 1
  | SchemaType.bool_ => 1
  | SchemaType.char => 1
  | SchemaType.uchar => 1
  | SchemaType.short => 2
  | SchemaType.ushort => 2
  | SchemaType.int_ => 4
  | SchemaType.uint => 4
  | SchemaType.float_ => 4
  | SchemaType.long => 8
  | SchemaType.ulong => 8
  | SchemaType.double_ => 8
  | SchemaType.string_ => 4
  | SchemaType.vector _ => 4
  | SchemaType.struct_ => 4
  | SchemaType.union_ => 4
  | SchemaType.unhandled => 1

/-- The Swift keyword array built in the `SwiftGenerator` constructor
(lines 23–102), in source order; `keywords_` is the set of these strings. -/
def swiftKeywords : List String :=
  ["associatedtype", "class", "deinit", "enum", "extension", "fileprivate",
   "func", "import", "init", "inout", "internal", "let", "open", "operator",
   "private", "protocol", "public", "static", "struct", "subscript",
   "typealias", "var", "break", "case", "continue", "default", "defer", "do",
   "else", "fallthrough", "for", "guard", "if", "in", "repeat", "return",
   "switch", "where", "while", "as", "Any", "catch", "false", "is", "nil",
   "rethrows", "super", "self", "Self", "throw", "throws", "true", "try",
   "_", "associativity", "convenience", "dynamic", "didSet", "final", "get",
   "infix", "indirect", "lazy", "left", "mutating", "none", "nonmutating",
   "optional", "override", "postfix", "precedence", "prefix", "Protocol",
   "required", "right", "set", "Type", "unowned", "weak", "willSet"]

/-- `SwiftGenerator::EscapeKeyword` (lines 150–152): append `_` exactly when
the name is in the keyword set. -/
def EscapeKeyword (name : String) : String :=
  if name ∈ swiftKeywords then name ++ "_" else name

/-- One emitted field accessor getter body (`GenStruct` lines 277–286):
`let tableValue = offset(vtableElementIndex: <lookupIndex>)` followed by
`return tableValue != 0 ? data.getIntegerType(uoffset: tableValue +
tablePosition) : <fallback>`.  `lookupIndex` is the literal the source prints
from `field.value.offset`, `fallback` the literal from
`field.value.constant`. -/
structure GetterBody where
  lookupIndex : Nat
  fallback : String
deriving DecidableEq, Repr

/-- One emitted accessor (`GenStruct` lines 269–287): the property name (the
schema field name, camel-cased by the external `MakeCamel` when rendered),
the declared Swift type from `GenType`, and the getter body. -/
structure Accessor where
  fieldName : String
  swiftType : String
  body : GetterBody
deriving DecidableEq, Repr

/-- Denotation of an emitted getter body against an abstract buffer:
`lookup` is the vtable lookup `offset(vtableElementIndex:)`, `readAt` the raw
read `data.getIntegerType(uoffset:)`, `tablePosition` the record base.  The
body returns the read at `tableValue + tablePosition` when the lookup result
is nonzero and the default literal otherwise. -/
def evalGetter (g : GetterBody) (lookup : Nat → Nat) (readAt : Nat → String)
    (tablePosition : Nat) : String :=
  let tableValue := lookup g.lookupIndex
  if tableValue ≠ 0 then readAt (tableValue + tablePosition) else g.fallback

/-- The accessor built for one field (`GenStruct` lines 269–286). -/
def mkAccessor (f : FieldDef) : Accessor :=
  { fieldName := f.name
    swiftType := GenTypeS f.value.type
    body := { lookupIndex := f.value.offset, fallback := f.value.constant } }

/-- The accessor loop of `GenStruct` (lines 258–287): every field in
declaration order, skipping deprecated ones (`if (field.deprecated)
continue`). -/
def accessorList : List FieldDef → List Accessor
  | [] => []
  | f :: rest =>
      if f.deprecated then accessorList rest
      else mkAccessor f :: accessorList rest

/-- One parameter of the generated `create<Record>` signature
(`GenStruct` lines 294–303): the field name and its type, with `UOffset`
appended when the field is not scalar (line 302). -/
structure CreateArg where
  argName : String
  swiftType : String
deriving DecidableEq, Repr

/-- The `create<Record>` parameter for one field. -/
def mkCreateArg (f : FieldDef) : CreateArg :=
  { argName := f.name
    swiftType :=
      GenTypeS f.value.type ++ (if IsScalar f.value.type then ("") else ("UOffset")) }

/-- The parameter loop of `create<Record>` (lines 294–303): declaration
order, skipping deprecated fields. -/
def createArgList : List FieldDef → List CreateArg
  | [] => []
  | f :: rest =>
      if f.deprecated then createArgList rest
      else mkCreateArg f :: createArgList rest

/-- The size values visited by the write loop of `create<Record>`
(line 308): `for (size_t size = struct_def.sortbysize ?
sizeof(largest_scalar_t) : 1; size; size /= 2)`.  `largest_scalar_t` is
`uint64_t` (flatbuffers.h, outside `src/`), so the loop starts at 8 and
halves: it visits 8, 4, 2, 1 when `sortbysize` is set and just 1
otherwise. -/
def sizePasses (s : StructDef) : List Nat :=
  if s.sortbysize then [8, 4, 2, 1] else [1]

/-- One pass of the inner loop of `create<Record>` (lines 310–322): the
fields are traversed in reverse declaration order (`rbegin` … `rend`), and a
field is emitted when it is not deprecated and, if `sortbysize` is set, its
inline size equals the current pass size (line 313–315). -/
def passFields (s : StructDef) (size : Nat) : List FieldDef :=
  s.fields.reverse.filter
    (fun f => (!f.deprecated) && ((!s.sortbysize) || (size == sizeOfType f.value.type)))

/-- Concatenation of the per-pass field lists, in pass order (the nested
loops of lines 308–323). -/
def concatMap (l : List Nat) (g : Nat → List FieldDef) : List FieldDef :=
  match l with
  | [] => []
  | a :: rest => g a ++ concatMap rest g

/-- The sequence of fields whose add-calls the `create<Record>` body emits,
in emission order (lines 308–323). -/
def createAddOrder (s : StructDef) : List FieldDef :=
  concatMap (sizePasses s) (passFields s)

/-- One add-call emitted in the `create<Record>` body (lines 316–320):
`<receiver>.add<FieldName>(builder, <fieldName>[Offset])`; the argument gets
an `Offset` suffix when the field is not scalar (line 319). -/
structure AddCall where
  receiver : String
  fieldName : String
  argHasOffsetSuffix : Bool
deriving DecidableEq, Repr

/-- The add-calls of the `create<Record>` body, in emission order. -/
def createAddCalls (s : StructDef) : List AddCall :=
  (createAddOrder s).map
    (fun f => { receiver := s.name, fieldName := f.name,
                argHasOffsetSuffix := !(IsScalar f.value.type) })

/-- One generated `add<FieldName>` static helper
(`generateClassStructStaticMethods` lines 344–362): it emits
`builder.add(vTableIndex: <vTableIndex>, <arg>, defaultValue:
<defaultValue>)` where the printed index is `it - struct_def.fields.vec.
begin()` (line 355) — the field's position in the full declaration list. -/
structure AddMethod where
  fieldName : String
  vTableIndex : Nat
  argIsOffset : Bool
  defaultValue : String
deriving DecidableEq, Repr

/-- The `add<FieldName>` helper built for the field at declaration position
`i`. -/
def mkAdd (i : Nat) (f : FieldDef) : AddMethod :=
  { fieldName := f.name
    vTableIndex := i
    argIsOffset := !(IsScalar f.value.type)
    defaultValue := f.value.constant }

/-- The add-helper loop (lines 344–362): the iterator position advances over
every field, deprecated ones included (the printed index is the iterator
offset from `begin()`), but emission is skipped for deprecated fields
(line 347). -/
def addMethodsFrom : Nat → List FieldDef → List AddMethod
  | _, [] => []
  | i, f :: rest =>
      if f.deprecated then addMethodsFrom (i + 1) rest
      else mkAdd i f :: addMethodsFrom (i + 1) rest

/-- All `add<FieldName>` helpers of a record, in emission order. -/
def addMethodList (s : StructDef) : List AddMethod :=
  addMethodsFrom 0 s.fields

/-- One `builder.required(o, <index>)` call emitted in `end<Record>`
(lines 367–375); the printed index is `field.value.offset` (line 372). -/
structure RequiredCall where
  index : Nat
  fieldName : String
deriving DecidableEq, Repr

/-- The required-check loop of `end<Record>` (lines 367–375): declaration
order, one call per field that is not deprecated and is required. -/
def requiredCallList : List FieldDef → List RequiredCall
  | [] => []
  | f :: rest =>
      if (!f.deprecated) && f.required then
        { index := f.value.offset, fieldName := f.name } :: requiredCallList rest
      else requiredCallList rest

/-- The `finish<Record>Buffer` entry point (lines 377–387): emitted only for
the root definition; the emitted `builder.finish` call carries the file
identifier literal exactly when `parser_.file_identifier_.length()` is
nonzero (lines 383–385). -/
structure FinishEntry where
  fileIdent : Option String
deriving DecidableEq, Repr

/-- The structured content of everything `GenStruct` (with
`generateClassStructStaticMethods`) emits for one record definition. -/
structure StructEmission where
  structName : String
  accessors : List Accessor
  createArgs : List CreateArg
  createStartCount : Nat
  createAddCalls : List AddCall
  startMethodCount : Nat
  addMethods : List AddMethod
  requiredCalls : List RequiredCall
  finishEntry : Option FinishEntry
  keyLookupStub : Bool
deriving DecidableEq, Repr

/-- `GenStruct` + `generateClassStructStaticMethods` for one record.
`isRoot` is `parser_.root_struct_def_ == &struct_def` (line 377), `fid` is
`parser_.file_identifier_`.  Both `startObject(feildCount:)` sites — inside
`create<Record>` (lines 306–307) and in `start<Record>` (lines 342–343) —
print `struct_def.fields.vec.size()`, the full declaration-list length.  The
key-compare stub is emitted when `has_key && !fixed` (line 390); nothing
else in the emission path reads the `fixed` flag. -/
def emitStruct (s : StructDef) (isRoot : Bool) (fid : String) : StructEmission :=
  { structName := s.name
    accessors := accessorList s.fields
    createArgs := createArgList s.fields
    createStartCount := s.fields.length
    createAddCalls := createAddCalls s
    startMethodCount := s.fields.length
    addMethods := addMethodList s
    requiredCalls := requiredCallList s.fields
    finishEntry :=
      if isRoot then
        some { fileIdent := if fid.length ≠ 0 then some fid else none }
      else none
    keyLookupStub := s.has_key && !s.fixed }

/-- The struct loop of `generate` (lines 127–136), carrying along which
definition the parser's `root_struct_def_` pointer designates: the record at
list position `i` is the root exactly when the pointer target index equals
`i`. -/
def emitAll (rootIdx : Option Nat) (fid : String) : Nat → List StructDef → List StructEmission
  | _, [] => []
  | i, s :: rest =>
      emitStruct s (rootIdx == some i) fid :: emitAll rootIdx fid (i + 1) rest

/-- All struct emissions of one generator run. -/
def structEmissions (P : ParserModel) : List StructEmission :=
  emitAll P.rootIdx P.file_identifier 0 P.structs

/-- The non-deprecated fields of a record in declaration order — the fields
the spec calls *emitted*. -/
def emittedFields (s : StructDef) : List FieldDef :=
  s.fields.filter (fun f => !f.deprecated)

/-- Number of emitted (non-deprecated) fields. -/
def emittedFieldCount (s : StructDef) : Nat :=
  (emittedFields s).length

/-- The contiguous index range `[i, i + n)` as a list, used to state slot
contiguity. -/
def natRange : Nat → Nat → List Nat
  | _, 0 => []
  | i, n + 1 => i :: natRange (i + 1) n

/-- Refinement reference for the sorted write order, following the spec's
words: iterate the power-of-two size classes from the largest scalar size
down to 1 byte; within a class take the fields of exactly that size in
reverse declaration order. -/
def writeOrderSpecSorted (s : StructDef) : List FieldDef :=
  concatMap [8, 4, 2, 1]
    (fun sz =>
      (s.fields.filter
        (fun f => (!f.deprecated) && (sz == sizeOfType f.value.type))).reverse)

/-- The structured content of one `GenEnum` emission (lines 444–463): the
declaration name is `Name(enum_def)` (line 448), i.e. `EscapeKeyword`
applied to the schema name; each case line (line 456) prints `ev.name`
verbatim — the raw value name, not `Name(ev)` — with its numeric value. -/
structure EnumEmission where
  declName : String
  cases : List (String × Int)
deriving DecidableEq, Repr

/-- `GenEnum` as structured data. -/
def genEnumDecl (e : EnumDef) : EnumEmission :=
  { declName := EscapeKeyword e.name
    cases := e.vals.map (fun v => (v.name, v.value)) }

/-- One case line of `GenEnum` (line 456): `"\t case " + ev.name + " = " +
NumToString(ev.value) + "\n"`. -/
def enumCaseLine (v : EnumVal) : String :=
  "\t case " ++ v.name ++ " = " ++ toString v.value ++ "\n"

/-- The text `GenEnum` appends to `declcode` (lines 444–463; the doc-comment
banner of `GenComment` is not modelled — it only adds text, never removes
any): `"enum " + Name(enum_def) + ": Int" + " {\n"`, one case line per
value, and `"}\n"`. -/
def GenEnumCode (e : EnumDef) : String :=
  "enum " ++ EscapeKeyword e.name ++ ": Int" ++ " \x7b\n"
    ++ String.join (e.vals.map enumCaseLine) ++ "\x7d\n"

/-- The `declcode` the enum loop of `generate` hands to `SaveType`
(lines 112–118): empty when the definition's `generated` flag is set
(`GenEnum` is only called when `!enum_def.generated`). -/
def enumDeclCode (e : EnumDef) : String :=
  if e.generated then "" else GenEnumCode e

/-- Outcome of one `SaveType` call: either the early return for empty code
(no file touched, result `true`), or an attempted `SaveFile` with the
computed file name and the writer's result. -/
inductive SaveOutcome where
  | skipped
  | wrote (filename : String) (ok : Bool)
deriving DecidableEq, Repr

/-- `SwiftGenerator::SaveType` (lines 172–186): `if (!classcode.length())
return true;`, otherwise prepend the file banner and write
`NamespaceDir(ns) + def.name + ".swift"`.  The external collaborators are
parameters: `saveFile` is the file writer `SaveFile` and `nsDir` the
namespace-directory prefix `NamespaceDir(ns)` (both outside `src/`); the
banner only adds text and is not tracked. -/
def SaveType (saveFile : String → Bool) (nsDir : String)
    (defName : String) (classcode : String) : SaveOutcome :=
  if classcode.length = 0 then SaveOutcome.skipped
  else
    SaveOutcome.wrote (nsDir ++ defName ++ ".swift")
      (saveFile (nsDir ++ defName ++ ".swift"))

/-- The boolean `SaveType` returns to `generate`. -/
def saveOutcomeOk : SaveOutcome → Bool
  | SaveOutcome.skipped => true
  | SaveOutcome.wrote _ ok => ok

/-- The enum loop of `generate` in per-file mode (lines 112–124 with
`one_file` unset): per definition, build `declcode` and call `SaveType`;
on a `false` result return `false` immediately (processing stops), else
continue.  The result pairs the file names of the attempted writes, in
order, with the loop's boolean outcome. -/
def generateEnumsPerFile (saveFile : String → Bool) (nsDir : String) :
    List EnumDef → List String × Bool
  | [] => ([], true)
  | e :: rest =>
      match SaveType saveFile nsDir e.name (enumDeclCode e) with
      | SaveOutcome.skipped => generateEnumsPerFile saveFile nsDir rest
      | SaveOutcome.wrote fn ok =>
          if ok then
            let r := generateEnumsPerFile saveFile nsDir rest
            (fn :: r.1, r.2)
          else ([fn], false)

/-- Concrete input: a plain 32-bit integer field `a` (vtable offset 4, as
the external parser assigns: `FieldIndexToOffset(0) = (0 + 2) * 2`). -/
def fA : FieldDef :=
  { name := "a", value := { type := SchemaType.int_, constant := "0", offset := 4 },
    deprecated := false, required := false }

/-- Concrete input: a plain 32-bit integer field `b` (vtable offset 6). -/
def fB : FieldDef :=
  { name := "b", value := { type := SchemaType.int_, constant := "0", offset := 6 },
    deprecated := false, required := false }

/-- Concrete input: a deprecated field `d`. -/
def fDep : FieldDef :=
  { name := "d", value := { type := SchemaType.int_, constant := "0", offset := 4 },
    deprecated := true, required := false }

/-- Concrete input: a two-field table, neither field deprecated,
`sortbysize` unset. -/
def sPlain : StructDef :=
  { name := "P", fields := [fA, fB], fixed := false, sortbysize := false,
    has_key := false }

/-- Concrete input: a table whose first declared field is deprecated. -/
def sDep : StructDef :=
  { name := "D", fields := [fDep, fB], fixed := false, sortbysize := false,
    has_key := false }

/-- Concrete input: the spec's scenario field `hp: short = 100` (slot 0,
parser-assigned vtable offset `(0 + 2) * 2 = 4`). -/
def fHp : FieldDef :=
  { name := "hp", value := { type := SchemaType.short, constant := "100", offset := 4 },
    deprecated := false, required := false }

/-- Concrete input: the spec's scenario field `name: string (required)`
(slot 1, parser-assigned vtable offset `(1 + 2) * 2 = 6`). -/
def fName : FieldDef :=
  { name := "name", value := { type := SchemaType.string_, constant := "0", offset := 6 },
    deprecated := false, required := true }

/-- Concrete input: the spec's scenario table
`table Monster { hp: short = 100; name: string (required); }`. -/
def sMonster : StructDef :=
  { name := "Monster", fields := [fHp, fName], fixed := false,
    sortbysize := false, has_key := false }

/-- Concrete input: one float field of the fixed struct `Vec3`. -/
def fX : FieldDef :=
  { name := "x", value := { type := SchemaType.float_, constant := "0.0", offset := 0 },
    deprecated := false, required := false }

/-- Concrete input: one float field of the fixed struct `Vec3`. -/
def fY : FieldDef :=
  { name := "y", value := { type := SchemaType.float_, constant := "0.0", offset := 4 },
    deprecated := false, required := false }

/-- Concrete input: one float field of the fixed struct `Vec3`. -/
def fZ : FieldDef :=
  { name := "z", value := { type := SchemaType.float_, constant := "0.0", offset := 8 },
    deprecated := false, required := false }

/-- Concrete input: the spec's scenario
`struct Vec3 { x: float; y: float; z: float; }`, a fixed-layout struct. -/
def vec3 : StructDef :=
  { name := "Vec3", fields := [fX, fY, fZ], fixed := true, sortbysize := false,
    has_key := false }

/-- Concrete input: an enum with a single value named `case`, which is a
Swift keyword. -/
def enumE : EnumDef :=
  { name := "E", vals := [{ name := "case", value := 0 }], generated := false }

/-- Concrete input: a schema whose designated root is `sMonster` (index 0)
and whose declared file identifier is `MONS`. -/
def pRoot : ParserModel :=
  { enums := [], structs := [sMonster], rootIdx := some 0,
    file_identifier := "MONS", one_file := false }

theorem concatMap_congr (l : List Nat) (g h : Nat → List FieldDef)
    (hg : ∀ a ∈ l, g a = h a) : concatMap l g = concatMap l h := by
  induction l with
  | nil => rfl
  | cons a rest ih =>
      rw [concatMap, concatMap, hg a (List.mem_cons_self a rest),
        ih (fun b hb => hg b (List.mem_cons_of_mem a hb))]

theorem accessorList_eq_map_filter (l : List FieldDef) :
    accessorList l = (l.filter (fun f => !f.deprecated)).map mkAccessor := by
  induction l with
  | nil => rfl
  | cons f rest ih =>
      cases hd : f.deprecated <;>
        simp [accessorList, List.filter_cons, hd, ih]

theorem requiredCallList_eq_map_filter (l : List FieldDef) :
    requiredCallList l
      = (l.filter (fun f => (!f.deprecated) && f.required)).map
          (fun f => { index := f.value.offset, fieldName := f.name }) := by
  induction l with
  | nil => rfl
  | cons f rest ih =>
      cases hd : f.deprecated <;> cases hr : f.required <;>
        simp [requiredCallList, List.filter_cons, hd, hr, ih]

theorem addMethodsFrom_index_ge (l : List FieldDef) :
    ∀ (i : Nat) (m : AddMethod), m ∈ addMethodsFrom i l → i ≤ m.vTableIndex := by
  induction l with
  | nil => intro i m hm; simp [addMethodsFrom] at hm
  | cons f rest ih =>
      intro i m hm
      cases hd : f.deprecated
      · rw [addMethodsFrom, if_neg (by simp [hd])] at hm
        rcases List.mem_cons.mp hm with hmk | hmem
        · subst hmk; exact Nat.le_refl i
        · exact Nat.le_of_succ_le (ih (i + 1) m hmem)
      · rw [addMethodsFrom, if_pos (by simp [hd])] at hm
        exact Nat.le_of_succ_le (ih (i + 1) m hm)

theorem addMethodsFrom_pairwise (l : List FieldDef) :
    ∀ i : Nat,
      ((addMethodsFrom i l).map (fun m => m.vTableIndex)).Pairwise (· < ·) := by
  induction l with
  | nil => intro i; simp [addMethodsFrom]
  | cons f rest ih =>
      intro i
      cases hd : f.deprecated
      · rw [addMethodsFrom, if_neg (by simp [hd])]
        rw [List.map_cons, List.pairwise_cons]
        refine ⟨?_, ih (i + 1)⟩
        intro v hv
        rcases List.mem_map.mp hv with ⟨m, hm, hv2⟩
        subst hv2
        have h1 := addMethodsFrom_index_ge rest (i + 1) m hm
        exact Nat.lt_of_succ_le h1
      · rw [addMethodsFrom, if_pos (by simp [hd])]
        exact ih (i + 1)

theorem addMethodsFrom_all_live (l : List FieldDef) :
    ∀ i : Nat, (∀ f ∈ l, f.deprecated = false) →
      (addMethodsFrom i l).map (fun m => m.vTableIndex) = natRange i l.length := by
  induction l with
  | nil => intro i _; rfl
  | cons f rest ih =>
      intro i h
      have hf : f.deprecated = false := h f (List.mem_cons_self f rest)
      rw [addMethodsFrom, if_neg (by simp [hf]), List.map_cons,
        List.length_cons, natRange,
        ih (i + 1) (fun g hg => h g (List.mem_cons_of_mem f hg))]
      rfl

theorem addMethodsFrom_mem_of_get (l : List FieldDef) :
    ∀ (i j : Nat) (hj : j < l.length),
      (l.get ⟨j, hj⟩).deprecated = false →
      mkAdd (i + j) (l.get ⟨j, hj⟩) ∈ addMethodsFrom i l := by
  induction l with
  | nil => intro i j hj; exact absurd hj (Nat.not_lt_zero j)
  | cons f rest ih =>
      intro i j hj hd
      cases j with
      | zero =>
          have hf : (f :: rest).get ⟨0, hj⟩ = f := rfl
          rw [hf] at hd ⊢
          rw [addMethodsFrom, if_neg (by simp [hd])]
          exact List.mem_cons_self _ _
      | succ k =>
          have hk : k < rest.length := Nat.lt_of_succ_lt_succ hj
          have hg : (f :: rest).get ⟨k + 1, hj⟩ = rest.get ⟨k, hk⟩ := rfl
          rw [hg] at hd ⊢
          have hmem := ih (i + 1) k hk hd
          have harith : i + (k + 1) = (i + 1) + k := by omega
          rw [harith]
          cases hfd : f.deprecated
          · rw [addMethodsFrom, if_neg (by simp [hfd])]
            exact List.mem_cons_of_mem _ hmem
          · rw [addMethodsFrom, if_pos (by simp [hfd])]
            exact hmem

theorem filter_live_of_all (l : List FieldDef)
    (h : ∀ f ∈ l, f.deprecated = false) :
    l.filter (fun f => !f.deprecated) = l := by
  induction l with
  | nil => rfl
  | cons f rest ih =>
      have hf : f.deprecated = false := h f (List.mem_cons_self f rest)
      rw [List.filter_cons, if_pos (by simp [hf]),
        ih (fun g hg => h g (List.mem_cons_of_mem f hg))]

theorem emitAll_getElem (r : Option Nat) (fid : String) (l : List StructDef) :
    ∀ (i j : Nat) (e : StructEmission),
      (emitAll r fid i l)[j]? = some e →
      ∃ s, l[j]? = some s ∧ e = emitStruct s (r == some (i + j)) fid := by
  induction l with
  | nil => intro i j e h; simp [emitAll] at h
  | cons s rest ih =>
      intro i j e h
      cases j with
      | zero =>
          rw [emitAll, List.getElem?_cons_zero, Option.some_inj] at h
          exact ⟨s, by simp, by rw [← h, Nat.add_zero]⟩
      | succ k =>
          rw [emitAll, List.getElem?_cons_succ] at h
          rcases ih (i + 1) k e h with ⟨s2, hs2, he⟩
          refine ⟨s2, by simpa using hs2, ?_⟩
          rw [he]
          have : i + 1 + k = i + (k + 1) := by omega
          rw [this]

theorem addMethodsFrom_length (l : List FieldDef) :
    ∀ i : Nat,
      (addMethodsFrom i l).length = (l.filter (fun f => !f.deprecated)).length := by
  induction l with
  | nil => intro i; rfl
  | cons f rest ih =>
      intro i
      cases hd : f.deprecated
      · rw [addMethodsFrom, if_neg (by simp [hd]), List.filter_cons,
          if_pos (by simp [hd]), List.length_cons, List.length_cons, ih (i + 1)]
      · rw [addMethodsFrom, if_pos (by simp [hd]), List.filter_cons,
          if_neg (by simp [hd])]
        exact ih (i + 1)

theorem addMethodsFrom_mem_inv (l : List FieldDef) :
    ∀ (i : Nat) (m : AddMethod), m ∈ addMethodsFrom i l →
      ∃ (j : Nat) (hj : j < l.length),
        (l.get ⟨j, hj⟩).deprecated = false ∧ m = mkAdd (i + j) (l.get ⟨j, hj⟩) := by
  induction l with
  | nil => intro i m hm; simp [addMethodsFrom] at hm
  | cons f rest ih =>
      intro i m hm
      cases hd : f.deprecated
      · rw [addMethodsFrom, if_neg (by simp [hd])] at hm
        rcases List.mem_cons.mp hm with hmk | hm2
        · subst hmk
          exact ⟨0, Nat.succ_pos rest.length, hd, rfl⟩
        · rcases ih (i + 1) m hm2 with ⟨j, hj, hl, hmk⟩
          refine ⟨j + 1, Nat.succ_lt_succ hj, hl, ?_⟩
          rw [hmk]
          congr 1
          omega
      · rw [addMethodsFrom, if_pos (by simp [hd])] at hm
        rcases ih (i + 1) m hm with ⟨j, hj, hl, hmk⟩
        refine ⟨j + 1, Nat.succ_lt_succ hj, hl, ?_⟩
        rw [hmk]
        congr 1
        omega

theorem mem_natRange : ∀ (n i x : Nat), x ∈ natRange i n → i ≤ x ∧ x < i + n := by
  intro n
  induction n with
  | zero => intro i x hx; simp [natRange] at hx
  | succ n ih =>
      intro i x hx
      rw [natRange] at hx
      rcases List.mem_cons.mp hx with hx1 | hx2
      · omega
      · have := ih (i + 1) x hx2
        omega

theorem pairwise_lt_length_le :
    ∀ L : List Nat, L.Pairwise (· < ·) →
      ∀ a n : Nat, (∀ x ∈ L, a ≤ x ∧ x < n) → L.length ≤ n - a := by
  intro L
  induction L with
  | nil => intro _ a n _; simp
  | cons h t ih =>
      intro hp a n hb
      rcases List.pairwise_cons.mp hp with ⟨hh, hpt⟩
      have hhb := hb h (List.mem_cons_self h t)
      have hbt : ∀ x ∈ t, h + 1 ≤ x ∧ x < n := by
        intro x hx
        exact ⟨Nat.succ_le_of_lt (hh x hx), (hb x (List.mem_cons_of_mem h hx)).2⟩
      have ht := ih hpt (h + 1) n hbt
      rw [List.length_cons]
      omega

theorem pairwise_bounded_eq_natRange :
    ∀ (L : List Nat) (i : Nat), L.Pairwise (· < ·) →
      (∀ x ∈ L, i ≤ x ∧ x < i + L.length) → L = natRange i L.length := by
  intro L
  induction L with
  | nil => intro i _ _; rfl
  | cons h t ih =>
      intro i hp hb
      rcases List.pairwise_cons.mp hp with ⟨hh, hpt⟩
      have hhi : h = i := by
        have hhb := hb h (List.mem_cons_self h t)
        by_contra hne
        have hgt : i < h := Nat.lt_of_le_of_ne hhb.1 (fun e => hne e.symm)
        have hall : ∀ x ∈ h :: t, h ≤ x ∧ x < i + (h :: t).length := by
          intro x hx
          rcases List.mem_cons.mp hx with hx1 | hx2
          · exact ⟨Nat.le_of_eq hx1.symm, (hb x hx).2⟩
          · exact ⟨Nat.le_of_lt (hh x hx2), (hb x hx).2⟩
        have hlen := pairwise_lt_length_le (h :: t) hp h (i + (h :: t).length) hall
        rw [List.length_cons] at hlen
        omega
      subst hhi
      have hbt : ∀ x ∈ t, (h + 1) ≤ x ∧ x < (h + 1) + t.length := by
        intro x hx
        refine ⟨Nat.succ_le_of_lt (hh x hx), ?_⟩
        have := (hb x (List.mem_cons_of_mem h hx)).2
        rw [List.length_cons] at this
        omega
      have ht := ih (h + 1) hpt hbt
      rw [List.length_cons, natRange, ← ht]

/-- Claim C1, counterexample: on a two-field record with `sortbysize` unset
the `create<Record>` body emits its add-calls in reverse declaration order
`[b, a]`, not the declaration order `[a, b]` the claim states, because the
inner write loop always iterates `rbegin` … `rend`. -/
theorem c1_counterexample :
    sPlain.sortbysize = false
    ∧ createAddOrder sPlain = [fB, fA]
    ∧ emittedFields sPlain = [fA, fB]
    ∧ createAddOrder sPlain ≠ emittedFields sPlain := by decide

/-- Claim C1, amended: the write order of the `create<Record>` body is the
*reverse* declaration order of the non-deprecated fields when `sortbysize`
is unset; when it is set, the order is grouped by descending power-of-two
size bucket (8, 4, 2, 1 bytes) with reverse declaration order within each
bucket; and the vtable slot indices of the `add<FieldName>` helpers do not
depend on `sortbysize` at all. -/
theorem c1_amended (s : StructDef) (b : Bool) :
    createAddOrder s
      = (if s.sortbysize then writeOrderSpecSorted s else (emittedFields s).reverse)
    ∧ addMethodList { s with sortbysize := b } = addMethodList s := by
  constructor
  · cases hs : s.sortbysize with
    | false =>
        rw [if_neg (by simp [hs])]
        rw [createAddOrder, sizePasses, if_neg (by simp [hs])]
        simp only [concatMap, List.append_nil]
        rw [passFields]
        simp only [hs, Bool.not_false, Bool.true_or, Bool.and_true]
        rw [List.filter_reverse]
        rfl
    | true =>
        rw [if_pos (by simp [hs])]
        rw [createAddOrder, sizePasses, if_pos (by simp [hs]), writeOrderSpecSorted]
        refine concatMap_congr _ _ _ ?_
        intro a _
        rw [passFields]
        simp only [hs, Bool.not_true, Bool.false_or]
        rw [List.filter_reverse]
  · rfl

/-- Claim C2, counterexample: a record with one deprecated and one live
field gets `startObject(feildCount: 2)` — both in `start<Record>` and in
`create<Record>` — although only one field is emitted. -/
theorem c2_counterexample :
    (emitStruct sDep false ("")).startMethodCount = 2
    ∧ (emitStruct sDep false ("")).createStartCount = 2
    ∧ emittedFieldCount sDep = 1
    ∧ (2 : Nat) ≠ 1 := by decide

/-- Claim C2, amended: the field-count argument of `startObject` — at both
emission sites — equals the *total* number of declared fields, deprecated
ones included (`struct_def.fields.vec.size()`), which exceeds the emitted
field count by the number of deprecated fields. -/
theorem c2_amended (s : StructDef) (isRoot : Bool) (fid : String) :
    (emitStruct s isRoot fid).createStartCount = s.fields.length
    ∧ (emitStruct s isRoot fid).startMethodCount = s.fields.length
    ∧ s.fields.length
        = emittedFieldCount s + (s.fields.filter (fun f => f.deprecated)).length := by
  refine ⟨rfl, rfl, ?_⟩
  rw [emittedFieldCount, emittedFields]
  have h := List.length_eq_length_filter_add (l := s.fields) (fun f => !f.deprecated)
  simpa [Bool.not_not] using h

/-- Claim C3, counterexample: in a record whose first declared field is
deprecated, the single emitted field's `add` helper prints vtable index 1
(its position among *all* declared fields), so the emitted indices are `[1]`
and not the contiguous range `[0, 1)` the claim states. -/
theorem c3_counterexample :
    (emitStruct sDep false ("")).addMethods.map (fun m => m.vTableIndex) = [1]
    ∧ emittedFieldCount sDep = 1
    ∧ ¬ ((1 : Nat) < 1)
    ∧ (emitStruct sDep false ("")).addMethods.map (fun m => m.vTableIndex)
        ≠ natRange 0 (emittedFieldCount sDep) := by decide

/-- Claim C3, amended: the vtable index printed in each `add<FieldName>`
helper is the field's position among *all* declared fields (deprecated ones
included) in declaration order; across the emitted fields these indices are
strictly increasing, hence pairwise distinct; and they form the contiguous
range `[0, emittedFieldCount)` exactly when every emitted field's
declaration position is below `emittedFieldCount` (i.e. when no deprecated
field is declared before an emitted one) — in particular whenever the
record has no deprecated fields. -/
theorem c3_amended (s : StructDef) :
    ((addMethodList s).map (fun m => m.vTableIndex)).Pairwise (· < ·)
    ∧ ((addMethodList s).map (fun m => m.vTableIndex)).Nodup
    ∧ ((addMethodList s).map (fun m => m.vTableIndex)
          = natRange 0 (emittedFieldCount s)
        ↔ (∀ (j : Nat) (hj : j < s.fields.length),
            (s.fields.get ⟨j, hj⟩).deprecated = false → j < emittedFieldCount s))
    ∧ ((∀ f ∈ s.fields, f.deprecated = false) →
        (addMethodList s).map (fun m => m.vTableIndex)
          = natRange 0 (emittedFieldCount s))
    ∧ (∀ (j : Nat) (hj : j < s.fields.length),
        (s.fields.get ⟨j, hj⟩).deprecated = false →
        mkAdd j (s.fields.get ⟨j, hj⟩) ∈ addMethodList s) := by
  have hlen : ((addMethodList s).map (fun m => m.vTableIndex)).length
      = emittedFieldCount s := by
    rw [List.length_map]
    exact addMethodsFrom_length s.fields 0
  refine ⟨addMethodsFrom_pairwise s.fields 0, ?_, ⟨?_, ?_⟩, ?_, ?_⟩
  · exact (addMethodsFrom_pairwise s.fields 0).imp Nat.ne_of_lt
  · intro heq j hj hd
    have hmem := addMethodsFrom_mem_of_get s.fields 0 j hj hd
    have hjmem : j ∈ (addMethodList s).map (fun m => m.vTableIndex) := by
      refine List.mem_map.mpr ⟨mkAdd (0 + j) (s.fields.get ⟨j, hj⟩), hmem, ?_⟩
      simp [mkAdd]
    rw [heq] at hjmem
    have := mem_natRange (emittedFieldCount s) 0 j hjmem
    omega
  · intro hpos
    have hb : ∀ x ∈ (addMethodList s).map (fun m => m.vTableIndex),
        0 ≤ x ∧ x < 0 + ((addMethodList s).map (fun m => m.vTableIndex)).length := by
      intro x hx
      rcases List.mem_map.mp hx with ⟨m, hm, hxm⟩
      rcases addMethodsFrom_mem_inv s.fields 0 m hm with ⟨j, hj, hl, hmk⟩
      have hx2 : x = j := by
        rw [← hxm, hmk]
        simp [mkAdd]
      have hjc := hpos j hj hl
      refine ⟨Nat.zero_le x, ?_⟩
      omega
    have h := pairwise_bounded_eq_natRange
      ((addMethodList s).map (fun m => m.vTableIndex)) 0
      (addMethodsFrom_pairwise s.fields 0) hb
    rw [hlen] at h
    exact h
  · intro h
    rw [addMethodList, addMethodsFrom_all_live s.fields 0 h, emittedFieldCount,
      emittedFields, filter_live_of_all s.fields h]
  · intro j hj hd
    have h := addMethodsFrom_mem_of_get s.fields 0 j hj hd
    simpa [addMethodList] using h

/-- Claim C3, witness: the amended statement applied to the concrete
two-live-field record: the position condition of the contiguity criterion
holds, so the indices are exactly `[0, 2)`, and the first field's helper
carries index 0. -/
theorem c3_amended_witness :
    (addMethodList sPlain).map (fun m => m.vTableIndex)
      = natRange 0 (emittedFieldCount sPlain)
    ∧ mkAdd 0 fA ∈ addMethodList sPlain := by
  constructor
  · exact ((c3_amended sPlain).2.2.1).mpr (by decide)
  · have h := (c3_amended sPlain).2.2.2.2 0 (by decide) (by decide)
    exact h

/-- Claim C4, counterexample: for the spec's Monster table the `end<Record>`
body emits `builder.required(o, 6)` — printing `field.value.offset` of the
required `name` field — while that field's `add` helper prints vtable index
1, so the required call does not use the same index as the add-call. -/
theorem c4_counterexample :
    (emitStruct sMonster false ("")).requiredCalls
      = [{ index := 6, fieldName := "name" }]
    ∧ (∃ m ∈ (emitStruct sMonster false ("")).addMethods,
        m.fieldName = "name" ∧ m.vTableIndex = 1)
    ∧ (6 : Nat) ≠ 1 := by decide

/-- Claim C4, amended: `end<Record>` emits exactly one `required(o, idx)`
call per non-deprecated required field, in declaration order, and none for
any other field; the printed `idx` is the field's stored vtable offset
(`field.value.offset`) — the same index the field's accessor getter looks
up, not in general the positional index printed in the field's add-call. -/
theorem c4_amended (s : StructDef) :
    requiredCallList s.fields
      = (s.fields.filter (fun f => (!f.deprecated) && f.required)).map
          (fun f => { index := f.value.offset, fieldName := f.name })
    ∧ (∀ f ∈ s.fields, f.deprecated = false → f.required = true →
        ({ index := f.value.offset, fieldName := f.name } : RequiredCall)
            ∈ requiredCallList s.fields
        ∧ (mkAccessor f).body.lookupIndex = f.value.offset) := by
  refine ⟨requiredCallList_eq_map_filter s.fields, ?_⟩
  intro f hf hd hr
  refine ⟨?_, rfl⟩
  rw [requiredCallList_eq_map_filter]
  exact List.mem_map.mpr ⟨f, List.mem_filter.mpr ⟨hf, by simp [hd, hr]⟩, rfl⟩

/-- Claim C4, witness: the amended statement applied to the Monster table
and its required `name` field. -/
theorem c4_amended_witness :
    ({ index := 6, fieldName := "name" } : RequiredCall)
        ∈ requiredCallList sMonster.fields
    ∧ (mkAccessor fName).body.lookupIndex = fName.value.offset := by
  have h := (c4_amended sMonster).2 fName (by decide) (by decide) (by decide)
  exact h

/-- Claim C5, confirmed: the accessor list contains exactly one getter per
non-deprecated field, in declaration order; each getter is declared at the
mapped Swift type, looks up the field's stored vtable index
(`field.value.offset`), and its body returns the read at the looked-up
offset plus the record base position when the lookup result is nonzero and
the field's declared default literal otherwise. -/
theorem c5_accessor_shape (s : StructDef) (isRoot : Bool) (fid : String)
    (f : FieldDef) (lookup : Nat → Nat) (readAt : Nat → String) (pos : Nat) :
    (emitStruct s isRoot fid).accessors = (emittedFields s).map mkAccessor
    ∧ (mkAccessor f).swiftType = GenTypeS f.value.type
    ∧ (mkAccessor f).body.lookupIndex = f.value.offset
    ∧ (mkAccessor f).body.fallback = f.value.constant
    ∧ evalGetter (mkAccessor f).body lookup readAt pos
        = (if lookup f.value.offset ≠ 0
           then readAt (lookup f.value.offset + pos)
           else f.value.constant) := by
  refine ⟨?_, rfl, rfl, rfl, rfl⟩
  exact accessorList_eq_map_filter s.fields

/-- Claim C6, confirmed: in a generator run, the record at position `i` of
the schema's struct list gets a `finish<Record>Buffer` entry exactly when
the parser's root pointer designates position `i`, and the emitted finish
call carries the file identifier literal exactly when the schema's declared
identifier is non-empty (and then carries that identifier verbatim). -/
theorem c6_finish_root (P : ParserModel) (i : Nat) (e : StructEmission)
    (he : (structEmissions P)[i]? = some e) :
    (e.finishEntry.isSome ↔ P.rootIdx = some i)
    ∧ (∀ fe, e.finishEntry = some fe →
        ((fe.fileIdent.isSome ↔ P.file_identifier.length ≠ 0)
         ∧ (∀ idf, fe.fileIdent = some idf → idf = P.file_identifier))) := by
  rcases emitAll_getElem P.rootIdx P.file_identifier P.structs 0 i e he with ⟨s, _, hE⟩
  subst hE
  rw [Nat.zero_add]
  have hfin : (emitStruct s (P.rootIdx == some i) P.file_identifier).finishEntry
      = (if (P.rootIdx == some i) = true
         then some { fileIdent :=
            if P.file_identifier.length ≠ 0 then some P.file_identifier else none }
         else none) := rfl
  by_cases hr : P.rootIdx = some i
  · constructor
    · rw [hfin, if_pos (by simp [hr])]
      simp [hr]
    · intro fe hfe
      rw [hfin, if_pos (by simp [hr]), Option.some_inj] at hfe
      subst hfe
      by_cases hl : P.file_identifier.length ≠ 0
      · refine ⟨by simp [hl], ?_⟩
        intro idf hidf
        rw [if_pos hl, Option.some_inj] at hidf
        exact hidf.symm
      · refine ⟨by simp [if_neg hl, hl], ?_⟩
        intro idf hidf
        rw [if_neg hl] at hidf
        exact absurd hidf (by simp)
  · constructor
    · rw [hfin, if_neg (by simp [hr])]
      simp [hr]
    · intro fe hfe
      rw [hfin, if_neg (by simp [hr])] at hfe
      exact absurd hfe (by simp)

/-- Claim C6, witness: the concrete one-table schema rooted at `Monster`
with file identifier `MONS`: the finish entry is present and carries the
identifier. -/
theorem c6_finish_root_witness :
    ((emitStruct sMonster ((some 0 : Option Nat) == some 0) ("MONS")).finishEntry.isSome
      ↔ pRoot.rootIdx = some 0)
    ∧ (({ fileIdent := some ("MONS") } : FinishEntry).fileIdent.isSome
      ↔ pRoot.file_identifier.length ≠ 0) :=
  ⟨(c6_finish_root pRoot 0
      (emitStruct sMonster ((some 0 : Option Nat) == some 0) ("MONS")) (by rfl)).1,
   ((c6_finish_root pRoot 0
      (emitStruct sMonster ((some 0 : Option Nat) == some 0) ("MONS")) (by rfl)).2
      { fileIdent := some ("MONS") } (by rfl)).1⟩

/-- Claim C7: evaluation at the failing input.  For the fixed-layout struct
`Vec3` the generator still emits the full vtable machinery — a
`start<Record>` with field count 3, three `add` helpers, a nonempty add-call
sequence in `create<Record>`, and vtable-lookup accessors — and the whole
emission is identical to that of the same record with `fixed` unset: the
emission path never branches on the `fixed` flag (its only use is the
key-compare stub's `has_key && !fixed` test). -/
theorem c7_fixed_struct_emission :
    vec3.fixed = true
    ∧ (emitStruct vec3 false ("")).startMethodCount = 3
    ∧ (emitStruct vec3 false ("")).addMethods.length = 3
    ∧ (emitStruct vec3 false ("")).createAddCalls ≠ []
    ∧ (emitStruct vec3 false ("")).accessors.map (fun a => a.body.lookupIndex)
        = [0, 4, 8]
    ∧ emitStruct { vec3 with fixed := false } false ("") = emitStruct vec3 false ("") := by
  decide

/-- Claim C8: evaluation at the failing input.  The switch of `GenType` does
have an explicit case per named variant (e.g. the vector case maps its
element recursively), but its `default` branch is not fatal: the assert
condition is the string literal itself, which is always true, so an
unhandled variant silently yields the empty string as a value. -/
theorem c8_unknown_variant_not_fatal :
    GenType SchemaType.unhandled = GenResult.value ("")
    ∧ GenType SchemaType.unhandled ≠ GenResult.fatal
    ∧ GenType (SchemaType.vector SchemaType.int_) = GenResult.value ("Array<Int32>")
    ∧ GenType SchemaType.ushort = GenResult.value (" UInt16") := by
  decide

/-- Claim C9, counterexample: the enum value name `case` is in the Swift
keyword set and `EscapeKeyword` would turn it into `case_`, yet `GenEnum`
emits the case line with the raw name `case` (line 456 prints `ev.name`, not
`Name(ev)`), so escaping is not applied to enum value names. -/
theorem c9_counterexample :
    ("case") ∈ swiftKeywords
    ∧ (genEnumDecl enumE).cases = [("case", 0)]
    ∧ EscapeKeyword ("case") = ("case_")
    ∧ ("case" : String) ≠ ("case_") := by decide

theorem createArgList_eq_map_filter (l : List FieldDef) :
    createArgList l = (l.filter (fun f => !f.deprecated)).map mkCreateArg := by
  induction l with
  | nil => rfl
  | cons f rest ih =>
      cases hd : f.deprecated <;>
        simp [createArgList, List.filter_cons, hd, ih]

/-- Claim C9, amended: `EscapeKeyword` appends `_` exactly when the name is
in the fixed Swift keyword set, and it is applied to enum *definition* names
only: enum value names, struct/table names, accessor property names and
`create` parameter names are all emitted from the raw schema name (the
helper `Name(const EnumVal&)` exists in the source but is never called). -/
theorem c9_amended (n : String) (e : EnumDef) (s : StructDef)
    (isRoot : Bool) (fid : String) :
    EscapeKeyword n = (if n ∈ swiftKeywords then n ++ "_" else n)
    ∧ (genEnumDecl e).declName = EscapeKeyword e.name
    ∧ (genEnumDecl e).cases = e.vals.map (fun v => (v.name, v.value))
    ∧ (emitStruct s isRoot fid).structName = s.name
    ∧ (emitStruct s isRoot fid).accessors.map (fun a => a.fieldName)
        = (emittedFields s).map (fun f => f.name)
    ∧ (emitStruct s isRoot fid).createArgs.map (fun a => a.argName)
        = (emittedFields s).map (fun f => f.name) := by
  refine ⟨rfl, rfl, rfl, rfl, ?_, ?_⟩
  · rw [show (emitStruct s isRoot fid).accessors = accessorList s.fields from rfl,
      accessorList_eq_map_filter, List.map_map]
    rfl
  · rw [show (emitStruct s isRoot fid).createArgs = createArgList s.fields from rfl,
      createArgList_eq_map_filter, List.map_map]
    rfl

/-- Claim C10, confirmed: in per-file mode, a definition whose generated
code text is empty — e.g. an enum whose `generated` flag is set, for which
the enum loop never calls `GenEnum` — makes `SaveType` return success
without attempting any file write, and the generation loop over the
remaining definitions proceeds exactly as if the definition were absent. -/
theorem c10_generated_enum_skipped (saveFile : String → Bool) (nsDir n : String)
    (vs : List EnumVal) (rest : List EnumDef) :
    enumDeclCode { name := n, vals := vs, generated := true } = ("")
    ∧ SaveType saveFile nsDir n ("") = SaveOutcome.skipped
    ∧ saveOutcomeOk (SaveType saveFile nsDir n ("")) = true
    ∧ generateEnumsPerFile saveFile nsDir
        ({ name := n, vals := vs, generated := true } :: rest)
      = generateEnumsPerFile saveFile nsDir rest := by
  refine ⟨rfl, rfl, rfl, rfl⟩
